import Mathlib

/-!
Verification development for the analysis-orchestration subsystem of the
Cancer-Care-Coordinator repository.

Part 1 embeds, directly from the frontend source
(`src/frontend/src/types/index.ts`, `src/frontend/src/hooks/useAnalysis.ts`
and the shared `ApiClient` module), the data model and the pure decision
logic of the client: the axios response interceptor, the SSE message
handler of `ApiClient.streamAnalysis`, the `refetchInterval` policy of
`useAnalysisStatus`, the request builder of `useRunAnalysis`, and the state
transitions of `useStreamingAnalysis`.

Part 2 models, from the specification, the backend orchestration engine
(Run Registry, Orchestrator state machine, Progress Broadcaster, Result
Store report construction), whose server-side source is not part of the
repository snapshot; each such definition carries a doc comment starting
with `Modelled from the spec:`.

JavaScript `number` fields that only travel through the embedded logic are
modelled as `Int`; JSON string-or-absent fields as `Option String`.
-/

namespace CancerCare

/-- JavaScript string short-circuit `a || b`: the empty string is falsy and
falls through to the default, matching `x.detail || msg` in the source. -/
def jsOrString : Option String → String → String
  | some s, d => if s = "" then d else s
  | none, d => d

/-- JavaScript numeric short-circuit `a || b`: `0` is falsy and falls
through to the default, matching `error.response?.status || 500`. -/
def jsOrNat : Option Nat → Nat → Nat
  | some n, d => if n = 0 then d else n
  | none, d => d

/-- `EligibilityCriterion` from `src/frontend/src/types/index.ts`. -/
structure EligibilityCriterion where
  criterion : String
  inclusion : Bool
  patient_meets : Option Bool := none
  details : Option String := none
deriving DecidableEq, Repr

/-- `ClinicalTrial` from `src/frontend/src/types/index.ts`. -/
structure ClinicalTrial where
  nct_id : String
  title : String
  brief_summary : Option String := none
  phase : String
  status : String
  sponsor : Option String := none
  interventions : List String
  locations : List String
  match_score : Int
  eligibility_criteria : List EligibilityCriterion
  match_rationale : Option String := none
deriving DecidableEq, Repr

/-- `TreatmentOption` from `src/frontend/src/types/index.ts`; the open
`Record<string, unknown>` field `expected_outcomes` is modelled as an
association list of raw JSON fragments. -/
structure TreatmentOption where
  id : Option String := none
  rank : Int
  name : String
  treatment_name : Option String := none
  category : Option String := none
  treatment_type : Option String := none
  drugs : Option (List String) := none
  dosing : Option String := none
  description : Option String := none
  recommendation : Option String := none
  recommendation_level : Option String := none
  confidence : Option Int := none
  confidence_score : Option Int := none
  evidence_level : Option String := none
  expected_response_rate : Option Int := none
  expected_outcomes : Option (List (String × String)) := none
  key_trials : Option (List String) := none
  supporting_evidence : Option (List String) := none
  common_side_effects : Option (List String) := none
  contraindications : Option (List String) := none
  patient_specific_considerations : Option (List String) := none
  rationale : Option String := none
deriving DecidableEq, Repr

/-- `TreatmentPlan` from `src/frontend/src/types/index.ts`. -/
structure TreatmentPlan where
  id : Option String := none
  patient_id : String
  generated_at : String
  status : Option String := none
  primary_recommendation : Option TreatmentOption := none
  alternative_options : Option (List TreatmentOption) := none
  treatment_options : List TreatmentOption
  clinical_trials : List ClinicalTrial
  discussion_points : List String
  summary : Option String := none
deriving DecidableEq, Repr

/-- `AnalysisRequest` from `src/frontend/src/types/index.ts`. -/
structure AnalysisRequest where
  patient_id : String
  analysis_type : Option String := none
  include_trials : Option Bool := none
  include_evidence : Option Bool := none
  user_questions : Option (List String) := none
  user_email : Option String := none
deriving DecidableEq, Repr

/-- `AnalysisProgress` from `src/frontend/src/types/index.ts`. -/
structure AnalysisProgress where
  request_id : String
  patient_id : String
  status : String
  current_step : String
  progress_percent : Int
  steps_completed : List String
  steps_remaining : List String
  current_step_detail : Option String := none
  error_message : Option String := none
deriving DecidableEq, Repr

/-- `AnalysisResult` from `src/frontend/src/types/index.ts`. -/
structure AnalysisResult where
  request_id : String
  patient_id : String
  status : String
  completed_at : String
  summary : String
  key_findings : List String
  recommendations : List String
  treatment_plan : Option TreatmentPlan := none
  clinical_trials : List ClinicalTrial
  sources_used : List String
deriving DecidableEq, Repr

/-- `APIError` from `src/frontend/src/types/index.ts`. -/
structure APIError where
  detail : String
  status_code : Nat
deriving DecidableEq, Repr

/-- The fields of an axios error's `response` object that the ApiClient
response interceptor reads: `response.data?.detail` and `response.status`. -/
structure AxiosResponseInfo where
  detail : Option String
  status : Nat
deriving DecidableEq, Repr

/-- The fields of an `AxiosError` that the response interceptor reads:
the optional `response` and the transport `message`. -/
structure AxiosErrorInfo where
  response : Option AxiosResponseInfo
  message : String
deriving DecidableEq, Repr

/-- The ApiClient response interceptor (`src/unnamed/part_009`, lines
69-78): builds an `APIError` with
`detail = error.response?.data?.detail || error.message || 'An error occurred'`
and `status_code = error.response?.status || 500`. -/
def interceptResponseError (e : AxiosErrorInfo) : APIError :=
  { detail := jsOrString (e.response.bind (fun r => r.detail))
      (jsOrString (some e.message) "An error occurred")
  , status_code := jsOrNat (e.response.map (fun r => r.status)) 500 }

/-- A parsed server-sent event received by `ApiClient.streamAnalysis`
(`src/unnamed/part_009`, lines 499-511): the JSON object is
progress-shaped and may carry a nested `result` payload. -/
structure StreamMessage where
  progress : AnalysisProgress
  result : Option AnalysisResult := none
deriving DecidableEq, Repr

/-- The single callback invoked by the stream handler for one message. -/
inductive StreamCallback where
  | onComplete (payload : Sum AnalysisResult StreamMessage)
  | onError (message : String)
  | onProgress (m : StreamMessage)
deriving DecidableEq, Repr

/-- The `onmessage` handler of `ApiClient.streamAnalysis`
(`src/unnamed/part_009`, lines 499-511). Returns the callback fired for
the message together with whether the handler closed the event source.
`completed` delivers `data.result || data` to `onComplete` and closes;
`error` delivers `data.error_message || 'Analysis failed'` to `onError`
and closes; every other status (including `cancelled`) is forwarded to
`onProgress` with the stream left open. -/
def streamAnalysisOnMessage (data : StreamMessage) : StreamCallback × Bool :=
  if data.progress.status = "completed" then
    (StreamCallback.onComplete
      (match data.result with
       | some r => Sum.inl r
       | none => Sum.inr data), true)
  else if data.progress.status = "error" then
    (StreamCallback.onError
      (jsOrString data.progress.error_message "Analysis failed"), true)
  else
    (StreamCallback.onProgress data, false)

/-- The terminal statuses of the spec's run state machine
(`pending → running → \x7bcompleted | error | cancelled\x7d`). -/
def isTerminalStatus (s : String) : Bool :=
  s = "completed" || s = "error" || s = "cancelled"

/-- Decision returned by a react-query `refetchInterval` callback:
stop polling, or poll again after the given number of milliseconds. -/
inductive RefetchDecision where
  | stop
  | afterMs (ms : Nat)
deriving DecidableEq, Repr

/-- The `refetchInterval` callback of `useAnalysisStatus`
(`src/frontend/src/hooks/useAnalysis.ts`, lines 20-27): returns `false`
(stop) when the cached snapshot's status is `completed` or `error`, and
2000 ms otherwise (also when no snapshot is cached yet). -/
def analysisStatusRefetchInterval (data : Option AnalysisProgress) :
    RefetchDecision :=
  if (data.map (fun d => d.status)) = some "completed"
      ∨ (data.map (fun d => d.status)) = some "error" then
    RefetchDecision.stop
  else
    RefetchDecision.afterMs 2000

/-- The optional `options` argument of `runAnalysis` in `useRunAnalysis`
(`src/frontend/src/hooks/useAnalysis.ts`, lines 117-122). -/
structure RunAnalysisOptions where
  include_trials : Option Bool := none
  include_evidence : Option Bool := none
  user_questions : Option (List String) := none
  user_email : Option String := none
deriving DecidableEq, Repr

/-- The `AnalysisRequest` built by `runAnalysis` in `useRunAnalysis`
(`src/frontend/src/hooks/useAnalysis.ts`, lines 124-130):
`patient_id` is the hook's `patientId`, `include_trials` and
`include_evidence` default to `true` via `??`, `user_questions` defaults
to `[]`, and `user_email` is passed through unchanged. -/
def buildRunAnalysisRequest (patientId : String)
    (options : Option RunAnalysisOptions) : AnalysisRequest :=
  { patient_id := patientId
  , include_trials := some ((options.bind (fun o => o.include_trials)).getD true)
  , include_evidence := some ((options.bind (fun o => o.include_evidence)).getD true)
  , user_questions := some ((options.bind (fun o => o.user_questions)).getD [])
  , user_email := options.bind (fun o => o.user_email) }

/-- The state held by the `useStreamingAnalysis` hook
(`src/frontend/src/hooks/useAnalysis.ts`, lines 55-109): `progress`,
`result`, `error` (modelled by its message) and `isStreaming`. -/
structure StreamingHookState where
  progress : Option AnalysisProgress
  result : Option AnalysisResult
  error : Option String
  isStreaming : Bool
deriving DecidableEq, Repr

/-- Initial `useState` values of `useStreamingAnalysis`. -/
def streamingHookInit : StreamingHookState :=
  { progress := none, result := none, error := none, isStreaming := false }

/-- The events that drive the `useStreamingAnalysis` state: a call to
`startStreaming`, the three `streamAnalysis` callbacks, and a call to
`stopStreaming`. -/
inductive StreamingHookEvent where
  | startStreaming
  | progressUpdate (p : AnalysisProgress)
  | completeResult (r : AnalysisResult)
  | errorResult (message : String)
  | stopStreaming
deriving DecidableEq, Repr

/-- One state transition of `useStreamingAnalysis`
(`src/frontend/src/hooks/useAnalysis.ts`, lines 62-90); each React event
handler runs as one batched update. `startStreaming` sets
`isStreaming := true` and resets `progress`, `result` and `error` to
`null`; the complete and error callbacks store their payload and set
`isStreaming := false` in the same transition; `stopStreaming` sets
`isStreaming := false`. -/
def streamingHookStep (s : StreamingHookState) :
    StreamingHookEvent → StreamingHookState
  | StreamingHookEvent.startStreaming =>
      { progress := none, result := none, error := none, isStreaming := true }
  | StreamingHookEvent.progressUpdate p => { s with progress := some p }
  | StreamingHookEvent.completeResult r =>
      { s with result := some r, isStreaming := false }
  | StreamingHookEvent.errorResult m =>
      { s with error := some m, isStreaming := false }
  | StreamingHookEvent.stopStreaming => { s with isStreaming := false }

/-- The invariant claimed for `useStreamingAnalysis`: whenever `result`
or `error` is non-null, `isStreaming` is false. -/
def streamingIdleInv (s : StreamingHookState) : Prop :=
  (s.result ≠ none ∨ s.error ≠ none) → s.isStreaming = false

/-- Modelled from the spec: the overall run status of the Orchestrator
state machine (§4.3), `pending → running → \x7bcompleted | error |
cancelled\x7d`, all three terminal. The backend orchestrator source is not
part of the repository snapshot. -/
inductive RunStatus where
  | pending
  | running
  | completed
  | error
  | cancelled
deriving DecidableEq, Repr

/-- A run status is terminal exactly when it is completed, error or
cancelled (spec §4.3). -/
def RunStatus.isTerminal : RunStatus → Bool
  | RunStatus.completed => true
  | RunStatus.error => true
  | RunStatus.cancelled => true
  | _ => false

/-- Modelled from the spec: the per-step status of RunState (§3),
not-started | running | done | skipped | failed. -/
inductive StepStatus where
  | notStarted
  | running
  | done
  | skipped
  | failed
deriving DecidableEq, Repr

/-- A step status counts toward progress exactly when the step completed
or was skipped (spec §3: progress = (completed or skipped)/(total)). -/
def StepStatus.countsOk : StepStatus → Bool
  | StepStatus.done => true
  | StepStatus.skipped => true
  | _ => false

/-- A step has reached a final per-step state (spec §4.3 step 4). -/
def StepStatus.isResolved : StepStatus → Bool
  | StepStatus.done => true
  | StepStatus.skipped => true
  | StepStatus.failed => true
  | _ => false

/-- Modelled from the spec: a `StepDefinition` (§3): unique name, the
names it depends on, and whether the step is optional (skippable without
failing the run). -/
structure StepDefinition where
  name : String
  deps : List String
  optional : Bool
deriving DecidableEq, Repr

/-- Modelled from the spec: the mutable `RunState` of one run (§3). The
wall-clock creation/completion timestamps are omitted: no claim mentions
them. The per-step status map is an association list. -/
structure RunState where
  runId : String
  subjectId : String
  status : RunStatus
  currentStep : Option String
  stepStatuses : List (String × StepStatus)
  completedSteps : List String
  progress : Nat
  errorMessage : Option String
  cancelRequested : Bool
deriving DecidableEq, Repr

/-- Look up a step's status in the per-step map; a step absent from the
map has not started. -/
def lookupStatus : List (String × StepStatus) → String → StepStatus
  | [], _ => StepStatus.notStarted
  | p :: rest, n => if p.1 = n then p.2 else lookupStatus rest n

/-- Update (or insert) one step's status in the per-step map. -/
def setStatus : List (String × StepStatus) → String → StepStatus →
    List (String × StepStatus)
  | [], n, v => [(n, v)]
  | p :: rest, n, v =>
      if p.1 = n then (n, v) :: rest else p :: setStatus rest n v

/-- Number of configured steps that are done or skipped. -/
def okCount (steps : List StepDefinition)
    (st : List (String × StepStatus)) : Nat :=
  steps.countP (fun sd => (lookupStatus st sd.name).countsOk)

/-- Modelled from the spec: numeric progress as the deterministic
function (number of steps completed or skipped) / (total steps) (§3),
expressed as a 0-100 percentage. -/
def computeProgress (steps : List StepDefinition)
    (st : List (String × StepStatus)) : Nat :=
  if steps.length = 0 then 0 else okCount steps st * 100 / steps.length

/-- Modelled from the spec: the Orchestrator's handling of one step
reaching a final state (§4.3 steps 3-6, §7): on a terminal run, nothing
changes (terminal RunState is immutable); a success marks the step done
and appends its name to the completed list; a failure of an optional step
marks it skipped (appending the `"name (skipped)"` marker the frontend
`AnalysisProgressComponent.getStepIcon` looks for); a failure of a
required step marks it failed and sets status `error`; progress is
recomputed from the step-status map on every transition; when every step
is done or skipped the run reaches status `completed`. -/
def finishStep (steps : List StepDefinition) (s : RunState)
    (name : String) (success : Bool) : RunState :=
  if s.status.isTerminal then s
  else
    match steps.find? (fun sd => sd.name = name) with
    | none => s
    | some sd =>
      if (lookupStatus s.stepStatuses name).isResolved then s
      else
        let newSt : StepStatus :=
          if success then StepStatus.done
          else if sd.optional then StepStatus.skipped
          else StepStatus.failed
        let st := setStatus s.stepStatuses name newSt
        let completedList :=
          if success then s.completedSteps ++ [name]
          else if sd.optional then s.completedSteps ++ [name ++ " (skipped)"]
          else s.completedSteps
        let prog := computeProgress steps st
        if newSt = StepStatus.failed then
          { s with stepStatuses := st, completedSteps := completedList,
                   progress := prog, status := RunStatus.error,
                   errorMessage := some (name ++ " failed"),
                   currentStep := none }
        else if steps.all (fun d => (lookupStatus st d.name).countsOk) then
          { s with stepStatuses := st, completedSteps := completedList,
                   progress := prog, status := RunStatus.completed,
                   currentStep := none }
        else
          { s with stepStatuses := st, completedSteps := completedList,
                   progress := prog }

/-- Modelled from the spec: `requestCancel` of the Run Registry (§4.4):
sets the cooperative cancellation flag read by the Orchestrator's
dispatch loop; a request arriving after the run is already terminal is a
no-op (§4.3: repeated cancellation requests after a run is already
terminal are no-ops). -/
def requestCancel (s : RunState) : RunState :=
  if s.status.isTerminal then s else { s with cancelRequested := true }

/-- Modelled from the spec: the events observed by one run's Orchestrator
loop (§4.3): the initial `pending → running` transition, a step reaching
a final state (success or failure after retries), an external
cancellation request, and the wave-boundary checkpoint at which a pending
cancellation takes effect. -/
inductive OrchEvent where
  | startRun
  | stepFinished (name : String) (success : Bool)
  | cancelRequest
  | waveBoundary
deriving DecidableEq, Repr

/-- Modelled from the spec: one transition of the Orchestrator state
machine (§4.3). -/
def orchStep (steps : List StepDefinition) (s : RunState) :
    OrchEvent → RunState
  | OrchEvent.startRun =>
      if s.status = RunStatus.pending
      then { s with status := RunStatus.running } else s
  | OrchEvent.stepFinished name success => finishStep steps s name success
  | OrchEvent.cancelRequest => requestCancel s
  | OrchEvent.waveBoundary =>
      if s.status.isTerminal then s
      else if s.cancelRequested then
        { s with status := RunStatus.cancelled, currentStep := none }
      else s

/-- Modelled from the spec: the RunState registered for a fresh
RunRequest (§3: status pending, no step started, progress recomputed from
the empty step map). -/
def initRunState (runId subjectId : String)
    (steps : List StepDefinition) : RunState :=
  { runId := runId, subjectId := subjectId, status := RunStatus.pending,
    currentStep := none, stepStatuses := [], completedSteps := [],
    progress := computeProgress steps [], errorMessage := none,
    cancelRequested := false }

/-- State of a run after a sequence of orchestrator events. -/
def runEvents (steps : List StepDefinition) (s0 : RunState)
    (evs : List OrchEvent) : RunState :=
  evs.foldl (orchStep steps) s0

/-- Modelled from the spec: the live snapshots the Progress Broadcaster
fans out to a subscriber (§4.5): one RunState snapshot per event
published after the subscriber joined, in order. -/
def liveSnapshots (steps : List StepDefinition) (s : RunState) :
    List OrchEvent → List RunState
  | [] => []
  | ev :: rest =>
      orchStep steps s ev :: liveSnapshots steps (orchStep steps s ev) rest

/-- Modelled from the spec: the full sequence delivered to a subscriber
that joins after the events `past` have happened and before the events
`future` (§4.5): a synthetic catch-up snapshot reflecting the current
accumulated state first, then the live snapshots. -/
def subscriberStream (steps : List StepDefinition) (s0 : RunState)
    (past future : List OrchEvent) : List RunState :=
  runEvents steps s0 past ::
    liveSnapshots steps (runEvents steps s0 past) future

/-- Modelled from the spec: the Run Registry invariant (§4.4): no two
registered runs are simultaneously active (non-terminal) for the same
subject. -/
def uniqueActive (reg : List RunState) : Prop :=
  reg.Pairwise (fun a b =>
    a.status.isTerminal = false → b.status.isTerminal = false →
    a.subjectId ≠ b.subjectId)

/-- Outcome of the Start operation: the conflict error or the new run id,
together with the registry afterwards. -/
structure StartOutcome where
  result : Except APIError String
  registry : List RunState
deriving Repr

/-- Modelled from the spec: the Start boundary operation (§4.4, §6):
if the subject already has an active (non-terminal) run in the registry,
fail synchronously with a conflict error and leave the registry
untouched; otherwise register exactly one fresh RunState. -/
def startRun (reg : List RunState) (subjectId : String)
    (newRunId : String) (steps : List StepDefinition) : StartOutcome :=
  match reg.find? (fun r =>
      decide (r.subjectId = subjectId) && !r.status.isTerminal) with
  | some _ =>
      { result := Except.error
          { detail := "Analysis already in progress for this patient",
            status_code := 409 },
        registry := reg }
  | none =>
      { result := Except.ok newRunId,
        registry := initRunState newRunId subjectId steps :: reg }

/-- Modelled from the spec: the Step Executor's bounded retry loop
(§4.2): given the outcome of each attempt in order, the step succeeds
exactly when some attempt within the budget succeeds; it fails after
exhausting all of its retries exactly when every attempt failed. -/
def execAttempts : List Bool → Bool
  | [] => false
  | a :: rest => a || execAttempts rest

/-- Modelled from the spec: the final `RunReport` (§3), built once at the
terminal transition from the RunState; the merged per-step payloads are
represented by the per-step status map and ordered completed list. -/
structure RunReport where
  runId : String
  subjectId : String
  finalStatus : RunStatus
  stepStatuses : List (String × StepStatus)
  completedSteps : List String
  errorMessage : Option String
deriving DecidableEq, Repr

/-- Modelled from the spec: RunReport construction at a terminal
transition (§4.3 step 7). -/
def buildReport (s : RunState) : RunReport :=
  { runId := s.runId, subjectId := s.subjectId, finalStatus := s.status,
    stepStatuses := s.stepStatuses, completedSteps := s.completedSteps,
    errorMessage := s.errorMessage }

/-- The concrete analysis pipeline of this application, as listed by the
frontend (`AnalysisProgressComponent.allSteps`: medical_history,
genomics, clinical_trials, evidence, treatment, synthesizing) with the
dependency waves of the spec's example scenario (§8); clinical_trials and
evidence are the optional steps toggled by the RunRequest flags. -/
def configuredSteps : List StepDefinition :=
  [ { name := "medical_history", deps := [], optional := false },
    { name := "genomics", deps := ["medical_history"], optional := false },
    { name := "clinical_trials", deps := ["medical_history"], optional := true },
    { name := "evidence", deps := ["medical_history"], optional := true },
    { name := "treatment",
      deps := ["genomics", "clinical_trials", "evidence"], optional := false },
    { name := "synthesizing",
      deps := ["medical_history", "genomics", "clinical_trials",
               "evidence", "treatment"], optional := false } ]

/-- The progress bookkeeping invariant of a RunState (spec §3): the
stored progress is the recomputed deterministic function of the step
statuses; a completed run has every step done or skipped; a run in any
other status has some step not yet done or skipped. -/
def ProgressInv (steps : List StepDefinition) (s : RunState) : Prop :=
  s.progress = computeProgress steps s.stepStatuses ∧
  (s.status = RunStatus.completed →
    ∀ sd ∈ steps, (lookupStatus s.stepStatuses sd.name).countsOk = true) ∧
  (s.status ≠ RunStatus.completed →
    ∃ sd ∈ steps, (lookupStatus s.stepStatuses sd.name).countsOk = false)

/-- A concrete cancelled progress snapshot, used to exercise the client
handlers on a terminal-but-not-completed status. -/
def cancelledProgress : AnalysisProgress :=
  { request_id := "run-1", patient_id := "p-1", status := "cancelled",
    current_step := "treatment", progress_percent := 60,
    steps_completed := ["medical_history", "genomics"],
    steps_remaining := ["treatment", "synthesizing"] }

/-- A concrete stream message with status `cancelled`. -/
def cancelledStreamMsg : StreamMessage :=
  { progress := cancelledProgress }

/-- A concrete stream message with status `completed` and no nested
result payload. -/
def completedStreamMsg : StreamMessage :=
  { progress :=
      { request_id := "run-1", patient_id := "p-1",
        status := "completed", current_step := "synthesizing",
        progress_percent := 100,
        steps_completed := ["medical_history", "genomics", "treatment"],
        steps_remaining := [] } }

/-- A concrete failed axios error carrying a server detail. -/
def notFoundAxiosError : AxiosErrorInfo :=
  { response := some { detail := some "Patient not found", status := 404 },
    message := "Request failed with status code 404" }

/-- A concrete registered run for subject `p-1` that is still active. -/
def activeRunP1 : RunState :=
  { initRunState "run-0" "p-1" configuredSteps with
      status := RunStatus.running }

/-- A concrete run for subject `p-1` that already reached a terminal
status. -/
def completedRunP1 : RunState :=
  { activeRunP1 with status := RunStatus.completed, progress := 100 }

/-- A concrete mid-run state in which every configured step except
`evidence` is already done. -/
def evidencePendingState : RunState :=
  { runId := "run-1", subjectId := "p-1", status := RunStatus.running,
    currentStep := some "evidence",
    stepStatuses := [("medical_history", StepStatus.done),
      ("genomics", StepStatus.done), ("clinical_trials", StepStatus.done),
      ("treatment", StepStatus.done), ("synthesizing", StepStatus.done)],
    completedSteps := ["medical_history", "genomics", "clinical_trials",
      "treatment", "synthesizing"],
    progress := 83, errorMessage := none, cancelRequested := false }

end CancerCare

namespace CancerCare

theorem lookupStatus_setStatus (st : List (String × StepStatus))
    (n : String) (v : StepStatus) (m : String) :
    lookupStatus (setStatus st n v) m =
      if m = n then v else lookupStatus st m := by
  induction st with
  | nil =>
      show (if n = m then v else lookupStatus [] m) =
        if m = n then v else lookupStatus [] m
      by_cases h : n = m
      · simp [h]
      · rw [if_neg h, if_neg (fun hmn => h hmn.symm)]
  | cons p rest ih =>
      show lookupStatus (if p.1 = n then (n, v) :: rest
            else p :: setStatus rest n v) m =
        if m = n then v else lookupStatus (p :: rest) m
      by_cases hp : p.1 = n
      · rw [if_pos hp]
        show (if n = m then v else lookupStatus rest m) =
          if m = n then v else lookupStatus (p :: rest) m
        by_cases hm : m = n
        · simp [hm]
        · rw [if_neg (fun hnm => hm hnm.symm), if_neg hm]
          show lookupStatus rest m =
            if p.1 = m then p.2 else lookupStatus rest m
          rw [if_neg (fun hpm => hm (hpm.symm.trans hp))]
      · rw [if_neg hp]
        show (if p.1 = m then p.2 else lookupStatus (setStatus rest n v) m) =
          if m = n then v else lookupStatus (p :: rest) m
        rw [ih]
        by_cases hpm : p.1 = m
        · have hm : ¬ m = n := fun hmn => hp (hpm.trans hmn)
          rw [if_pos hpm, if_neg hm]
          show p.2 = if p.1 = m then p.2 else lookupStatus rest m
          rw [if_pos hpm]
        · rw [if_neg hpm]
          by_cases hm : m = n
          · simp [hm]
          · rw [if_neg hm, if_neg hm]
            show lookupStatus rest m =
              if p.1 = m then p.2 else lookupStatus rest m
            rw [if_neg hpm]

/-- Claim C1 as stated is false on the code: the stream handler of
`ApiClient.streamAnalysis` does not close the event stream on a message
whose status is the terminal status `cancelled`; it forwards that message
to `onProgress` as an ordinary progress update and leaves the stream
open. -/
theorem claim_C1_counterexample :
    isTerminalStatus cancelledStreamMsg.progress.status = true ∧
    (streamAnalysisOnMessage cancelledStreamMsg).2 = false ∧
    (streamAnalysisOnMessage cancelledStreamMsg).1 =
      StreamCallback.onProgress cancelledStreamMsg := by
  refine ⟨rfl, rfl, rfl⟩

/-- Claim C1 amended: the stream handler closes the event stream if and
only if the message's status is `completed` or `error` (not `cancelled`).
A `completed` message fires `onComplete` once, unwrapping the nested
`result` field when present and passing the whole message otherwise; an
`error` message fires `onError` once with the message's error text (or a
default); every other message, including one with status `cancelled`, is
forwarded once to `onProgress` with the stream left open. -/
theorem claim_C1_stream_terminal (data : StreamMessage) :
    ((streamAnalysisOnMessage data).2 = true ↔
      data.progress.status = "completed" ∨ data.progress.status = "error") ∧
    (data.progress.status = "completed" →
      ∀ r, data.result = some r →
        (streamAnalysisOnMessage data).1 =
          StreamCallback.onComplete (Sum.inl r)) ∧
    (data.progress.status = "completed" → data.result = none →
      (streamAnalysisOnMessage data).1 =
        StreamCallback.onComplete (Sum.inr data)) ∧
    (data.progress.status = "error" →
      (streamAnalysisOnMessage data).1 = StreamCallback.onError
        (jsOrString data.progress.error_message "Analysis failed")) ∧
    (data.progress.status ≠ "completed" → data.progress.status ≠ "error" →
      (streamAnalysisOnMessage data).1 = StreamCallback.onProgress data ∧
      (streamAnalysisOnMessage data).2 = false) := by
  by_cases h1 : data.progress.status = "completed"
  · have h2 : data.progress.status ≠ "error" := by rw [h1]; decide
    refine ⟨by simp [streamAnalysisOnMessage, h1], ?_, ?_, ?_, ?_⟩
    · intro _ r hr
      simp [streamAnalysisOnMessage, h1, hr]
    · intro _ hr
      simp [streamAnalysisOnMessage, h1, hr]
    · intro hcontra
      exact absurd hcontra h2
    · intro hcontra _
      exact absurd h1 hcontra
  · by_cases h2 : data.progress.status = "error"
    · refine ⟨by simp [streamAnalysisOnMessage, h1, h2], ?_, ?_, ?_, ?_⟩
      · intro hcontra
        exact absurd hcontra h1
      · intro hcontra
        exact absurd hcontra h1
      · intro _
        simp [streamAnalysisOnMessage, h1, h2]
      · intro _ hcontra
        exact absurd h2 hcontra
    · refine ⟨by simp [streamAnalysisOnMessage, h1, h2], ?_, ?_, ?_, ?_⟩
      · intro hcontra
        exact absurd hcontra h1
      · intro hcontra
        exact absurd hcontra h1
      · intro hcontra
        exact absurd hcontra h2
      · intro _ _
        exact ⟨by simp [streamAnalysisOnMessage, h1, h2],
          by simp [streamAnalysisOnMessage, h1, h2]⟩

/-- Witness for the amended C1 theorem at a concrete completed message:
the handler closes the stream and fires `onComplete` with the whole
message, which carries no nested result. -/
theorem claim_C1_stream_terminal_witness :
    (streamAnalysisOnMessage completedStreamMsg).2 = true ∧
    (streamAnalysisOnMessage completedStreamMsg).1 =
      StreamCallback.onComplete (Sum.inr completedStreamMsg) :=
  ⟨(claim_C1_stream_terminal completedStreamMsg).1.mpr (Or.inl rfl),
   (claim_C1_stream_terminal completedStreamMsg).2.2.1 rfl rfl⟩

/-- Claim C2 as stated is false on the code: for a polled snapshot with
the terminal status `cancelled`, the `refetchInterval` callback of
`useAnalysisStatus` does not stop polling; it schedules the next poll in
2000 ms. -/
theorem claim_C2_counterexample :
    isTerminalStatus cancelledProgress.status = true ∧
    analysisStatusRefetchInterval (some cancelledProgress) =
      RefetchDecision.afterMs 2000 ∧
    analysisStatusRefetchInterval (some cancelledProgress) ≠
      RefetchDecision.stop := by
  refine ⟨rfl, rfl, by decide⟩

/-- Claim C2 amended: the polling callback stops if and only if the
snapshot's status is `completed` or `error` (not `cancelled`); for every
other status, and when no snapshot is cached yet, it schedules the next
poll in 2000 milliseconds. -/
theorem claim_C2_refetch (d : AnalysisProgress) :
    (analysisStatusRefetchInterval (some d) = RefetchDecision.stop ↔
      d.status = "completed" ∨ d.status = "error") ∧
    (¬(d.status = "completed" ∨ d.status = "error") →
      analysisStatusRefetchInterval (some d) =
        RefetchDecision.afterMs 2000) ∧
    analysisStatusRefetchInterval none = RefetchDecision.afterMs 2000 := by
  refine ⟨?_, ?_, rfl⟩
  · by_cases h : d.status = "completed" ∨ d.status = "error"
    · simp [analysisStatusRefetchInterval, h]
    · rw [not_or] at h
      simp [analysisStatusRefetchInterval, h.1, h.2]
  · intro h
    rw [not_or] at h
    simp [analysisStatusRefetchInterval, h.1, h.2]

/-- Witness for the amended C2 theorem: at the concrete cancelled
snapshot the callback does not stop and polls again in 2000 ms. -/
theorem claim_C2_refetch_witness :
    analysisStatusRefetchInterval (some cancelledProgress) =
      RefetchDecision.afterMs 2000 :=
  (claim_C2_refetch cancelledProgress).2.1 (by decide)

/-- Claim C8: the request posted by `runAnalysis` has `patient_id` equal
to the hook's `patientId`; `include_trials` and `include_evidence`
default to `true` and `user_questions` to the empty list when the options
argument is omitted or the field is missing; `user_email` stays undefined
when not supplied. -/
theorem claim_C8_run_request (patientId : String)
    (opts : Option RunAnalysisOptions) :
    (buildRunAnalysisRequest patientId opts).patient_id = patientId ∧
    (opts.bind (fun o => o.include_trials) = none →
      (buildRunAnalysisRequest patientId opts).include_trials = some true) ∧
    (opts.bind (fun o => o.include_evidence) = none →
      (buildRunAnalysisRequest patientId opts).include_evidence = some true) ∧
    (opts.bind (fun o => o.user_questions) = none →
      (buildRunAnalysisRequest patientId opts).user_questions = some []) ∧
    (opts.bind (fun o => o.user_email) = none →
      (buildRunAnalysisRequest patientId opts).user_email = none) ∧
    (∀ b, opts.bind (fun o => o.include_trials) = some b →
      (buildRunAnalysisRequest patientId opts).include_trials = some b) ∧
    (∀ e, opts.bind (fun o => o.user_email) = some e →
      (buildRunAnalysisRequest patientId opts).user_email = some e) := by
  refine ⟨rfl, ?_, ?_, ?_, ?_, ?_, ?_⟩
  · intro h; simp [buildRunAnalysisRequest, h]
  · intro h; simp [buildRunAnalysisRequest, h]
  · intro h; simp [buildRunAnalysisRequest, h]
  · intro h; simp [buildRunAnalysisRequest, h]
  · intro b h; simp [buildRunAnalysisRequest, h]
  · intro e h; simp [buildRunAnalysisRequest, h]

/-- Witness for C8 with the options argument omitted: every field takes
its documented default. -/
theorem claim_C8_run_request_witness :
    (buildRunAnalysisRequest "p-1" none).patient_id = "p-1" ∧
    (buildRunAnalysisRequest "p-1" none).include_trials = some true ∧
    (buildRunAnalysisRequest "p-1" none).include_evidence = some true ∧
    (buildRunAnalysisRequest "p-1" none).user_questions = some [] ∧
    (buildRunAnalysisRequest "p-1" none).user_email = none :=
  ⟨(claim_C8_run_request "p-1" none).1,
   (claim_C8_run_request "p-1" none).2.1 rfl,
   (claim_C8_run_request "p-1" none).2.2.1 rfl,
   (claim_C8_run_request "p-1" none).2.2.2.1 rfl,
   (claim_C8_run_request "p-1" none).2.2.2.2.1 rfl⟩

/-- Claim C9: every rejected API request surfaces as an `APIError`: the
detail is the server-provided (non-empty) detail when present, otherwise
the transport error's (non-empty) message, otherwise the string
`An error occurred`; the status code is the HTTP response status when a
response is present (HTTP statuses are non-zero), otherwise 500. -/
theorem claim_C9_api_error (e : AxiosErrorInfo) :
    (∀ d, e.response.bind (fun r => r.detail) = some d → d ≠ "" →
      (interceptResponseError e).detail = d) ∧
    (e.response.bind (fun r => r.detail) = none → e.message ≠ "" →
      (interceptResponseError e).detail = e.message) ∧
    (e.response.bind (fun r => r.detail) = some "" → e.message ≠ "" →
      (interceptResponseError e).detail = e.message) ∧
    (e.response.bind (fun r => r.detail) = none → e.message = "" →
      (interceptResponseError e).detail = "An error occurred") ∧
    (∀ r, e.response = some r → r.status ≠ 0 →
      (interceptResponseError e).status_code = r.status) ∧
    (e.response = none → (interceptResponseError e).status_code = 500) := by
  refine ⟨?_, ?_, ?_, ?_, ?_, ?_⟩
  · intro d hd hne
    simp [interceptResponseError, jsOrString, hd, hne]
  · intro hd hne
    simp [interceptResponseError, jsOrString, hd, hne]
  · intro hd hne
    simp [interceptResponseError, jsOrString, hd, hne]
  · intro hd hne
    simp [interceptResponseError, jsOrString, hd, hne]
  · intro r hr hne
    simp [interceptResponseError, jsOrNat, hr, hne]
  · intro hr
    simp [interceptResponseError, jsOrNat, hr]

/-- Witness for C9 at a concrete 404 error with a server detail: the
rejected value carries the server detail and the HTTP status. -/
theorem claim_C9_api_error_witness :
    (interceptResponseError notFoundAxiosError).detail =
      "Patient not found" ∧
    (interceptResponseError notFoundAxiosError).status_code = 404 :=
  ⟨(claim_C9_api_error notFoundAxiosError).1 "Patient not found" rfl
      (by decide),
   (claim_C9_api_error notFoundAxiosError).2.2.2.2.1
      { detail := some "Patient not found", status := 404 } rfl (by decide)⟩

theorem streamingHookStep_inv (s : StreamingHookState)
    (ev : StreamingHookEvent) (h : streamingIdleInv s) :
    streamingIdleInv (streamingHookStep s ev) := by
  cases ev with
  | startStreaming =>
      intro hcontra
      rcases hcontra with hc | hc <;> exact absurd rfl hc
  | progressUpdate p =>
      intro hcontra
      exact h hcontra
  | completeResult r => intro _; rfl
  | errorResult m => intro _; rfl
  | stopStreaming => intro _; rfl

/-- Claim C10: `useStreamingAnalysis` preserves the invariant that a
non-null `result` or `error` implies `isStreaming = false`: the invariant
holds initially, is preserved by every transition (hence along every
event sequence), `startStreaming` resets `progress`, `result` and `error`
to null while setting `isStreaming := true`, and the complete, error and
stop transitions set `isStreaming := false` in the same transition that
stores their payload. -/
theorem claim_C10_streaming_inv :
    streamingIdleInv streamingHookInit ∧
    (∀ s ev, streamingIdleInv s →
      streamingIdleInv (streamingHookStep s ev)) ∧
    (∀ evs : List StreamingHookEvent,
      streamingIdleInv (evs.foldl streamingHookStep streamingHookInit)) ∧
    (∀ s, streamingHookStep s StreamingHookEvent.startStreaming =
      { progress := none, result := none, error := none,
        isStreaming := true }) ∧
    (∀ s r,
      (streamingHookStep s (StreamingHookEvent.completeResult r)).result =
        some r ∧
      (streamingHookStep s
        (StreamingHookEvent.completeResult r)).isStreaming = false) ∧
    (∀ s m,
      (streamingHookStep s (StreamingHookEvent.errorResult m)).error =
        some m ∧
      (streamingHookStep s
        (StreamingHookEvent.errorResult m)).isStreaming = false) ∧
    (∀ s, (streamingHookStep s
      StreamingHookEvent.stopStreaming).isStreaming = false) := by
  have hinit : streamingIdleInv streamingHookInit := by
    intro hcontra
    rfl
  refine ⟨hinit, streamingHookStep_inv, ?_, fun s => rfl,
    fun s r => ⟨rfl, rfl⟩, fun s m => ⟨rfl, rfl⟩, fun s => rfl⟩
  intro evs
  have hgen : ∀ (l : List StreamingHookEvent) (s : StreamingHookState),
      streamingIdleInv s → streamingIdleInv (l.foldl streamingHookStep s) := by
    intro l
    induction l with
    | nil => intro s hs; exact hs
    | cons ev rest ih =>
        intro s hs
        exact ih (streamingHookStep s ev) (streamingHookStep_inv s ev hs)
  exact hgen evs streamingHookInit hinit

/-- Witness for C10: one concrete preservation instance, applied at the
initial state and a `startStreaming` event. -/
theorem claim_C10_streaming_inv_witness :
    streamingIdleInv
      (streamingHookStep streamingHookInit
        StreamingHookEvent.startStreaming) :=
  claim_C10_streaming_inv.2.1 streamingHookInit
    StreamingHookEvent.startStreaming (fun _ => rfl)

theorem requestCancel_idem (s : RunState) :
    requestCancel (requestCancel s) = requestCancel s := by
  unfold requestCancel
  by_cases h : s.status.isTerminal
  · simp [h]
  · simp [h]

/-- Claim C6: requesting cancellation is idempotent: any positive number
of `requestCancel` applications has the same effect on the run's state as
one, and a cancellation request arriving after the run is already
terminal changes nothing. Modelled from the spec (§4.3, §4.4): the
backend cancel endpoint behind `ApiClient.stopAnalysis` is not part of
the repository snapshot. -/
theorem claim_C6_cancel_idempotent (s : RunState) (n : Nat) :
    requestCancel (requestCancel s) = requestCancel s ∧
    Nat.iterate requestCancel (n + 1) s = requestCancel s ∧
    (s.status.isTerminal = true → requestCancel s = s) := by
  refine ⟨requestCancel_idem s, ?_, ?_⟩
  · induction n generalizing s with
    | zero => rfl
    | succ k ih =>
        show Nat.iterate requestCancel (k + 1) (requestCancel s) =
          requestCancel s
        rw [ih (requestCancel s), requestCancel_idem]
  · intro h
    unfold requestCancel
    rw [h]
    rfl

/-- Witness for C6: three cancellation requests on a concrete active run
equal one, and a cancellation request on a concrete completed run changes
nothing. -/
theorem claim_C6_cancel_idempotent_witness :
    Nat.iterate requestCancel 3 activeRunP1 = requestCancel activeRunP1 ∧
    requestCancel completedRunP1 = completedRunP1 :=
  ⟨(claim_C6_cancel_idempotent activeRunP1 2).2.1,
   (claim_C6_cancel_idempotent completedRunP1 0).2.2 (by decide)⟩

/-- Claim C4: with the registry holding at most one active run per
subject, starting an analysis for a subject that already has an active
(non-terminal) run fails synchronously with the 409 conflict error and
leaves the registry unchanged (no second RunState is registered); in
every case the at-most-one-active-run-per-subject invariant is preserved.
Modelled from the spec (§4.4, §6): the backend Run Registry behind
`ApiClient.startAnalysis` is not part of the repository snapshot. -/
theorem claim_C4_unique_active (reg : List RunState)
    (subj rid : String) (steps : List StepDefinition)
    (hreg : uniqueActive reg) :
    ((∃ r ∈ reg, r.subjectId = subj ∧ r.status.isTerminal = false) →
      (startRun reg subj rid steps).result = Except.error
        { detail := "Analysis already in progress for this patient",
          status_code := 409 } ∧
      (startRun reg subj rid steps).registry = reg) ∧
    uniqueActive (startRun reg subj rid steps).registry := by
  unfold startRun
  cases hfind : reg.find? (fun r =>
      decide (r.subjectId = subj) && !r.status.isTerminal) with
  | some r =>
      exact ⟨fun _ => ⟨rfl, rfl⟩, hreg⟩
  | none =>
      constructor
      · rintro ⟨r, hr, hsubj, hact⟩
        have hnone := List.find?_eq_none.mp hfind r hr
        rw [hsubj, hact] at hnone
        simp at hnone
      · show uniqueActive (initRunState rid subj steps :: reg)
        unfold uniqueActive
        rw [List.pairwise_cons]
        refine ⟨?_, hreg⟩
        intro b hb _ hbact
        have hnone := List.find?_eq_none.mp hfind b hb
        rw [hbact] at hnone
        simp at hnone
        intro hsubj
        exact hnone hsubj.symm

/-- Witness for C4: with a concrete registry already holding an active
run for subject `p-1`, a second start for `p-1` returns the conflict
error and the registry is unchanged. -/
theorem claim_C4_unique_active_witness :
    (startRun [activeRunP1] "p-1" "run-1" configuredSteps).result =
      Except.error
        { detail := "Analysis already in progress for this patient",
          status_code := 409 } ∧
    (startRun [activeRunP1] "p-1" "run-1" configuredSteps).registry =
      [activeRunP1] :=
  (claim_C4_unique_active [activeRunP1] "p-1" "run-1" configuredSteps
      (List.pairwise_singleton _ _)).1
    ⟨activeRunP1, List.mem_singleton.mpr rfl, rfl, rfl⟩

theorem liveSnapshots_eq_map (steps : List StepDefinition) :
    ∀ (future : List OrchEvent) (s : RunState),
    liveSnapshots steps s future =
      (List.range future.length).map
        (fun i => runEvents steps s (future.take (i + 1))) := by
  intro future
  induction future with
  | nil => intro s; rfl
  | cons ev rest ih =>
      intro s
      show orchStep steps s ev ::
          liveSnapshots steps (orchStep steps s ev) rest = _
      rw [ih (orchStep steps s ev)]
      show _ = (List.range (rest.length + 1)).map
        (fun i => runEvents steps s ((ev :: rest).take (i + 1)))
      rw [List.range_succ_eq_map, List.map_cons, List.map_map]
      rfl

/-- Claim C5: a subscriber that joins a run's progress stream after the
events `past` have already happened first receives the catch-up snapshot
reflecting the run's current accumulated state (the fold of all past
events), and then, after it, exactly the live snapshots produced by each
subsequent event, in order. Modelled from the spec (§4.5): the backend
Progress Broadcaster is not part of the repository snapshot. -/
theorem claim_C5_catchup (steps : List StepDefinition) (s0 : RunState)
    (past future : List OrchEvent) :
    subscriberStream steps s0 past future =
      (List.range (future.length + 1)).map
        (fun i => runEvents steps s0 (past ++ future.take i)) := by
  show runEvents steps s0 past ::
      liveSnapshots steps (runEvents steps s0 past) future = _
  rw [liveSnapshots_eq_map steps future (runEvents steps s0 past),
    List.range_succ_eq_map, List.map_cons, List.map_map]
  congr 1
  · simp [runEvents]
  · refine List.map_congr_left ?_
    intro i _
    simp [runEvents, List.foldl_append]

theorem countsOk_false_of_isResolved_false (st : StepStatus)
    (h : st.isResolved = false) : st.countsOk = false := by
  cases st <;> simp_all [StepStatus.isResolved, StepStatus.countsOk]

theorem ne_completed_of_not_terminal (s : RunStatus)
    (h : s.isTerminal = false) : s ≠ RunStatus.completed := by
  cases s <;> simp_all [RunStatus.isTerminal]

theorem okCount_setStatus_le (steps : List StepDefinition)
    (st : List (String × StepStatus)) (n : String) (v : StepStatus)
    (hok : (lookupStatus st n).countsOk = false) :
    okCount steps st ≤ okCount steps (setStatus st n v) := by
  unfold okCount
  apply List.countP_mono_left
  intro sd _ hsd
  by_cases h : sd.name = n
  · rw [h, hok] at hsd
    cases hsd
  · rw [lookupStatus_setStatus, if_neg h]
    exact hsd

theorem computeProgress_setStatus_le (steps : List StepDefinition)
    (st : List (String × StepStatus)) (n : String) (v : StepStatus)
    (hok : (lookupStatus st n).countsOk = false) :
    computeProgress steps st ≤ computeProgress steps (setStatus st n v) := by
  unfold computeProgress
  by_cases h0 : steps.length = 0
  · rw [if_pos h0]
    exact Nat.zero_le _
  · rw [if_neg h0, if_neg h0]
    exact Nat.div_le_div_right
      (Nat.mul_le_mul_right 100 (okCount_setStatus_le steps st n v hok))

theorem computeProgress_eq_100_iff (steps : List StepDefinition)
    (st : List (String × StepStatus)) (htot : 0 < steps.length) :
    computeProgress steps st = 100 ↔
      ∀ sd ∈ steps, (lookupStatus st sd.name).countsOk = true := by
  unfold computeProgress okCount
  rw [if_neg (Nat.pos_iff_ne_zero.mp htot)]
  constructor
  · intro h sd hsd
    by_contra hno
    have hle100 : steps.countP
        (fun sd => (lookupStatus st sd.name).countsOk) ≤ steps.length :=
      List.countP_le_length _
    have hlt : steps.countP
        (fun sd => (lookupStatus st sd.name).countsOk) < steps.length := by
      cases Nat.eq_or_lt_of_le hle100 with
      | inl heq => exact absurd (List.countP_eq_length.mp heq sd hsd) hno
      | inr hlt => exact hlt
    have hlt100 : steps.countP
        (fun sd => (lookupStatus st sd.name).countsOk) * 100 /
          steps.length < 100 := by
      rw [Nat.div_lt_iff_lt_mul htot]
      omega
    omega
  · intro hall
    rw [List.countP_eq_length.mpr hall]
    exact Nat.mul_div_cancel_left 100 htot

theorem finishStep_inv (steps : List StepDefinition) (s : RunState)
    (name : String) (success : Bool) (hinv : ProgressInv steps s) :
    ProgressInv steps (finishStep steps s name success) ∧
    s.progress ≤ (finishStep steps s name success).progress := by
  by_cases hterm : s.status.isTerminal = true
  · have hred : finishStep steps s name success = s := by
      simp [finishStep, hterm]
    rw [hred]
    exact ⟨hinv, Nat.le_refl _⟩
  · have hterm2 : s.status.isTerminal = false := by simpa using hterm
    cases hfind : steps.find? (fun sd => sd.name = name) with
    | none =>
        have hred : finishStep steps s name success = s := by
          simp [finishStep, hterm2, hfind]
        rw [hred]
        exact ⟨hinv, Nat.le_refl _⟩
    | some sd =>
        by_cases hres : (lookupStatus s.stepStatuses name).isResolved = true
        · have hred : finishStep steps s name success = s := by
            simp [finishStep, hterm2, hfind, hres]
          rw [hred]
          exact ⟨hinv, Nat.le_refl _⟩
        · have hres2 : (lookupStatus s.stepStatuses name).isResolved = false := by
            simpa using hres
          have hok : (lookupStatus s.stepStatuses name).countsOk = false :=
            countsOk_false_of_isResolved_false _ hres2
          have hle : ∀ v : StepStatus, s.progress ≤
              computeProgress steps (setStatus s.stepStatuses name v) := by
            intro v
            rw [hinv.1]
            exact computeProgress_setStatus_le steps s.stepStatuses name v hok
          have hnc : s.status ≠ RunStatus.completed :=
            ne_completed_of_not_terminal s.status hterm2
          cases success with
          | true =>
              by_cases hall : steps.all (fun d => (lookupStatus
                  (setStatus s.stepStatuses name StepStatus.done)
                    d.name).countsOk) = true
              · have hred : finishStep steps s name true =
                    { s with
                        stepStatuses :=
                          setStatus s.stepStatuses name StepStatus.done,
                        completedSteps := s.completedSteps ++ [name],
                        progress :=
                          computeProgress steps
                            (setStatus s.stepStatuses name StepStatus.done),
                        status := RunStatus.completed,
                        currentStep := none } := by
                  simp [finishStep, hterm2, hfind, hres2, hall]
                rw [hred]
                refine ⟨⟨rfl, ?_, ?_⟩, hle _⟩
                · intro _ d hd
                  exact List.all_eq_true.mp hall d hd
                · intro hne
                  exact absurd rfl hne
              · have hred : finishStep steps s name true =
                    { s with
                        stepStatuses :=
                          setStatus s.stepStatuses name StepStatus.done,
                        completedSteps := s.completedSteps ++ [name],
                        progress :=
                          computeProgress steps
                            (setStatus s.stepStatuses name StepStatus.done) } := by
                  simp [finishStep, hterm2, hfind, hres2, hall]
                rw [hred]
                refine ⟨⟨rfl, ?_, ?_⟩, hle _⟩
                · intro h
                  exact absurd h hnc
                · intro _
                  have hall2 : ¬ ∀ d ∈ steps, ((lookupStatus
                      (setStatus s.stepStatuses name StepStatus.done)
                        d.name).countsOk = true) := by
                    intro hforall
                    exact hall (List.all_eq_true.mpr hforall)
                  push_neg at hall2
                  obtain ⟨d, hd, hno⟩ := hall2
                  refine ⟨d, hd, ?_⟩
                  cases hcase : (lookupStatus
                      (setStatus s.stepStatuses name StepStatus.done)
                        d.name).countsOk with
                  | false => rfl
                  | true => exact absurd hcase hno
          | false =>
              cases hopt : sd.optional with
              | true =>
                  by_cases hall : steps.all (fun d => (lookupStatus
                      (setStatus s.stepStatuses name StepStatus.skipped)
                        d.name).countsOk) = true
                  · have hred : finishStep steps s name false =
                        { s with
                            stepStatuses :=
                              setStatus s.stepStatuses name
                                StepStatus.skipped,
                            completedSteps :=
                              s.completedSteps ++ [name ++ " (skipped)"],
                            progress :=
                              computeProgress steps
                                (setStatus s.stepStatuses name
                                  StepStatus.skipped),
                            status := RunStatus.completed,
                            currentStep := none } := by
                      simp [finishStep, hterm2, hfind, hres2, hopt, hall]
                    rw [hred]
                    refine ⟨⟨rfl, ?_, ?_⟩, hle _⟩
                    · intro _ d hd
                      exact List.all_eq_true.mp hall d hd
                    · intro hne
                      exact absurd rfl hne
                  · have hred : finishStep steps s name false =
                        { s with
                            stepStatuses :=
                              setStatus s.stepStatuses name
                                StepStatus.skipped,
                            completedSteps :=
                              s.completedSteps ++ [name ++ " (skipped)"],
                            progress :=
                              computeProgress steps
                                (setStatus s.stepStatuses name
                                  StepStatus.skipped) } := by
                      simp [finishStep, hterm2, hfind, hres2, hopt, hall]
                    rw [hred]
                    refine ⟨⟨rfl, ?_, ?_⟩, hle _⟩
                    · intro h
                      exact absurd h hnc
                    · intro _
                      have hall2 : ¬ ∀ d ∈ steps, ((lookupStatus
                          (setStatus s.stepStatuses name StepStatus.skipped)
                            d.name).countsOk = true) := by
                        intro hforall
                        exact hall (List.all_eq_true.mpr hforall)
                      push_neg at hall2
                      obtain ⟨d, hd, hno⟩ := hall2
                      refine ⟨d, hd, ?_⟩
                      cases hcase : (lookupStatus
                          (setStatus s.stepStatuses name StepStatus.skipped)
                            d.name).countsOk with
                      | false => rfl
                      | true => exact absurd hcase hno
              | false =>
                  have hred : finishStep steps s name false =
                      { s with
                          stepStatuses :=
                            setStatus s.stepStatuses name StepStatus.failed,
                          progress :=
                            computeProgress steps
                              (setStatus s.stepStatuses name
                                StepStatus.failed),
                          status := RunStatus.error,
                          errorMessage := some (name ++ " failed"),
                          currentStep := none } := by
                    simp [finishStep, hterm2, hfind, hres2, hopt]
                  rw [hred]
                  refine ⟨⟨rfl, ?_, ?_⟩, hle _⟩
                  · intro h
                    exact RunStatus.noConfusion h
                  · intro _
                    refine ⟨sd, List.mem_of_find?_eq_some hfind, ?_⟩
                    have hname : sd.name = name := by
                      have hp := List.find?_some hfind
                      simpa using hp
                    rw [hname, lookupStatus_setStatus, if_pos rfl]
                    rfl

theorem orchStep_inv (steps : List StepDefinition) (s : RunState)
    (ev : OrchEvent) (hinv : ProgressInv steps s) :
    ProgressInv steps (orchStep steps s ev) ∧
    s.progress ≤ (orchStep steps s ev).progress := by
  cases ev with
  | stepFinished name success => exact finishStep_inv steps s name success hinv
  | startRun =>
      by_cases hp : s.status = RunStatus.pending
      · have hred : orchStep steps s OrchEvent.startRun =
            { s with status := RunStatus.running } := by
          simp [orchStep, hp]
        rw [hred]
        refine ⟨⟨hinv.1, ?_, ?_⟩, Nat.le_refl _⟩
        · intro h
          exact RunStatus.noConfusion h
        · intro _
          have hne : s.status ≠ RunStatus.completed := by
            rw [hp]
            decide
          exact hinv.2.2 hne
      · have hred : orchStep steps s OrchEvent.startRun = s := by
          simp [orchStep, hp]
        rw [hred]
        exact ⟨hinv, Nat.le_refl _⟩
  | cancelRequest =>
      by_cases ht : s.status.isTerminal = true
      · have hred : orchStep steps s OrchEvent.cancelRequest = s := by
          simp [orchStep, requestCancel, ht]
        rw [hred]
        exact ⟨hinv, Nat.le_refl _⟩
      · have hred : orchStep steps s OrchEvent.cancelRequest =
            { s with cancelRequested := true } := by
          simp [orchStep, requestCancel, ht]
        rw [hred]
        exact ⟨⟨hinv.1, fun h => hinv.2.1 h, fun h => hinv.2.2 h⟩,
          Nat.le_refl _⟩
  | waveBoundary =>
      by_cases ht : s.status.isTerminal = true
      · have hred : orchStep steps s OrchEvent.waveBoundary = s := by
          simp [orchStep, ht]
        rw [hred]
        exact ⟨hinv, Nat.le_refl _⟩
      · have ht2 : s.status.isTerminal = false := by simpa using ht
        by_cases hc : s.cancelRequested = true
        · have hred : orchStep steps s OrchEvent.waveBoundary =
              { s with
                  status := RunStatus.cancelled,
                  currentStep := none } := by
            simp [orchStep, ht2, hc]
          rw [hred]
          refine ⟨⟨hinv.1, ?_, ?_⟩, Nat.le_refl _⟩
          · intro h
            exact RunStatus.noConfusion h
          · intro _
            exact hinv.2.2 (ne_completed_of_not_terminal s.status ht2)
        · have hred : orchStep steps s OrchEvent.waveBoundary = s := by
            simp [orchStep, ht2, hc]
          rw [hred]
          exact ⟨hinv, Nat.le_refl _⟩

/-- Claim C3: within a run the numeric progress is monotonically
non-decreasing under every orchestrator transition; the bookkeeping
invariant — progress always equals the deterministic function (number of
steps completed or skipped) / (total steps), recomputed on every
transition — holds at run creation and is preserved by every transition;
and under that invariant progress equals 100 exactly when the run's
status is `completed`. Modelled from the spec (§3, §4.3, §8): the backend
Orchestrator is not part of the repository snapshot. -/
theorem claim_C3_progress (steps : List StepDefinition)
    (rid sid : String) (s : RunState) (ev : OrchEvent)
    (htot : 0 < steps.length) (hinv : ProgressInv steps s) :
    ProgressInv steps (initRunState rid sid steps) ∧
    ProgressInv steps (orchStep steps s ev) ∧
    s.progress ≤ (orchStep steps s ev).progress ∧
    (s.status = RunStatus.completed ↔ s.progress = 100) := by
  refine ⟨?_, (orchStep_inv steps s ev hinv).1,
    (orchStep_inv steps s ev hinv).2, ?_⟩
  · refine ⟨rfl, ?_, ?_⟩
    · intro h
      exact RunStatus.noConfusion h
    · intro _
      cases steps with
      | nil => exact absurd htot (by decide)
      | cons a rest => exact ⟨a, List.mem_cons_self a rest, rfl⟩
  · constructor
    · intro h
      rw [hinv.1]
      exact (computeProgress_eq_100_iff steps s.stepStatuses htot).mpr
        (hinv.2.1 h)
    · intro h100
      by_contra hne
      obtain ⟨sd, hsd, hno⟩ := hinv.2.2 hne
      have hall := (computeProgress_eq_100_iff steps s.stepStatuses
        htot).mp (hinv.1.symm.trans h100)
      rw [hall sd hsd] at hno
      exact Bool.noConfusion hno

/-- Witness for C3: the invariant holds concretely after the first
transition of a freshly created run over the configured pipeline. -/
theorem claim_C3_progress_witness :
    ProgressInv configuredSteps
      (orchStep configuredSteps
        (initRunState "run-1" "p-1" configuredSteps)
        OrchEvent.startRun) :=
  (claim_C3_progress configuredSteps "run-1" "p-1"
      (initRunState "run-1" "p-1" configuredSteps) OrchEvent.startRun
      (by decide)
      ⟨rfl, fun h => RunStatus.noConfusion h,
        fun _ =>
          ⟨{ name := "medical_history", deps := [], optional := false },
            by decide, rfl⟩⟩).2.1

/-- Claim C7: when an optional step fails after exhausting all of its
retry attempts while every other configured step is already done or
skipped, the run still reaches terminal status `completed`, and the step
is marked `skipped` — not `failed` — in the RunState's per-step map (with
the `"name (skipped)"` marker appended to the completed list that the
frontend checks for) and in the RunReport built from it. Modelled from
the spec (§4.2, §4.3, §7, §8): the backend Orchestrator and Step Executor
are not part of the repository snapshot. -/
theorem claim_C7_optional_skip (steps : List StepDefinition) (s : RunState)
    (name : String) (sd : StepDefinition) (attempts : List Bool)
    (hfind : steps.find? (fun d => d.name = name) = some sd)
    (hopt : sd.optional = true)
    (hfail : execAttempts attempts = false)
    (hrun : s.status = RunStatus.running)
    (hunres : (lookupStatus s.stepStatuses name).isResolved = false)
    (hothers : ∀ d ∈ steps, d.name ≠ name →
      (lookupStatus s.stepStatuses d.name).countsOk = true) :
    (orchStep steps s (OrchEvent.stepFinished name
      (execAttempts attempts))).status = RunStatus.completed ∧
    lookupStatus (orchStep steps s (OrchEvent.stepFinished name
      (execAttempts attempts))).stepStatuses name = StepStatus.skipped ∧
    (orchStep steps s (OrchEvent.stepFinished name
      (execAttempts attempts))).completedSteps =
      s.completedSteps ++ [name ++ " (skipped)"] ∧
    (buildReport (orchStep steps s (OrchEvent.stepFinished name
      (execAttempts attempts)))).finalStatus = RunStatus.completed ∧
    lookupStatus (buildReport (orchStep steps s (OrchEvent.stepFinished
      name (execAttempts attempts)))).stepStatuses name =
      StepStatus.skipped := by
  rw [hfail]
  have hterm2 : s.status.isTerminal = false := by
    rw [hrun]
    rfl
  have hall : steps.all (fun d => (lookupStatus
      (setStatus s.stepStatuses name StepStatus.skipped)
        d.name).countsOk) = true := by
    rw [List.all_eq_true]
    intro d hd
    by_cases hdn : d.name = name
    · rw [hdn, lookupStatus_setStatus, if_pos rfl]
      rfl
    · rw [lookupStatus_setStatus, if_neg hdn]
      exact hothers d hd hdn
  have hred : finishStep steps s name false =
      { s with
          stepStatuses := setStatus s.stepStatuses name StepStatus.skipped,
          completedSteps := s.completedSteps ++ [name ++ " (skipped)"],
          progress :=
            computeProgress steps
              (setStatus s.stepStatuses name StepStatus.skipped),
          status := RunStatus.completed,
          currentStep := none } := by
    simp [finishStep, hterm2, hfind, hunres, hopt, hall]
  have horch : orchStep steps s (OrchEvent.stepFinished name false) =
      finishStep steps s name false := rfl
  rw [horch, hred]
  refine ⟨rfl, ?_, rfl, rfl, ?_⟩
  · rw [lookupStatus_setStatus, if_pos rfl]
  · show lookupStatus (setStatus s.stepStatuses name StepStatus.skipped)
      name = StepStatus.skipped
    rw [lookupStatus_setStatus, if_pos rfl]

/-- Witness for C7: with every step but the optional `evidence` step done,
three failed attempts on `evidence` complete the run with `evidence`
marked skipped in state and report. -/
theorem claim_C7_optional_skip_witness :
    (orchStep configuredSteps evidencePendingState
      (OrchEvent.stepFinished "evidence"
        (execAttempts [false, false, false]))).status =
      RunStatus.completed ∧
    lookupStatus (orchStep configuredSteps evidencePendingState
      (OrchEvent.stepFinished "evidence"
        (execAttempts [false, false, false]))).stepStatuses "evidence" =
      StepStatus.skipped ∧
    (buildReport (orchStep configuredSteps evidencePendingState
      (OrchEvent.stepFinished "evidence"
        (execAttempts [false, false, false])))).finalStatus =
      RunStatus.completed :=
  have h := claim_C7_optional_skip configuredSteps evidencePendingState
    "evidence"
    { name := "evidence", deps := ["medical_history"], optional := true }
    [false, false, false] (by decide) rfl rfl rfl (by decide) (by decide)
  ⟨h.1, h.2.1, h.2.2.2.1⟩

end CancerCare
